import Mathlib

/-!
# Verification of the ML-pipeline orchestrator

Shallow embedding of the repository's orchestration code:

* `Main.go` models `main.py`'s `go` function: a Hydra-driven linear
  pipeline runner that sets two W&B environment variables, computes the
  active step subset from the `main.steps` selector, enters a scratch
  temporary directory, launches each active step in the static order via
  `mlflow.run`, and in a `finally` block restores the original working
  directory (the `with tempfile.TemporaryDirectory()` block removes the
  scratch directory when control leaves it, before the `finally` runs).
  Step launches are modelled by an oracle `ok : String → Bool` giving each
  step's exit status; a raising launch sets the `failed` flag, which makes
  the rest of the `with`-body inert (the exception propagates) while the
  cleanup still runs.  Every observable action is also recorded in an
  event trace so that ordering properties can be stated.

* `BasicCleaning.go` models `src/basic_cleaning/run.py`'s `go`: price
  filter, `last_review` conversion, NYC bounding-box filter.  Prices and
  coordinates are modelled as rationals; `pd.to_datetime` is an abstract
  conversion function on the `last_review` column.
-/

namespace Main

/-- Observable actions of one orchestrator run, in order of occurrence. -/
inductive Event where
  | setEnvVar (key value : String)
  | enterWorkspace
  | writeFile (path content : String)
  | invoke (step uri : String) (params : List (String × String))
  | destroyWorkspace
  | restoreCwd
deriving DecidableEq, Repr

/-- Process/filesystem state threaded through a run of `go`. -/
structure RunState where
  env : String → Option String
  cwd : String
  workspacePresent : Bool
  failed : Bool
  trace : List Event

/-- The configuration values `main.py` reads from Hydra's `config`.
All values are modelled as the strings they are serialized to when
passed to `mlflow.run` parameters. -/
structure Config where
  steps : String
  project_name : String
  experiment_name : String
  components_repository : String
  etl_sample : String
  basic_cleaning_min_price : String
  basic_cleaning_max_price : String
  data_check_kl_threshold : String
  data_check_min_price : String
  data_check_max_price : String
  data_split_test_size : String
  data_split_random_state : String
  data_split_stratify_by : String
  data_split_val_size : String
  data_split_max_tfidf_features : String
  modeling_random_forest_json : String
deriving DecidableEq, Repr

/-- Steps that run when main.steps == "all" (`_STEPS` in `main.py`). -/
def _STEPS : List String :=
  ["download",
   "basic_cleaning",
   "data_check",
   "data_split",
   "train_random_forest",
   "test_regression_model"]

/-- Python's `str.split(",")`: split at every comma, keeping empty fields
(`"".split(",") == [""]`, `"a,,b".split(",") == ["a","","b"]`). -/
def splitComma (s : String) : List String :=
  let step := fun (acc : List String × String) (c : Char) =>
    if c = ',' then (acc.1 ++ [acc.2], "") else (acc.1, acc.2.push c)
  let r := s.toList.foldl step ([], "")
  r.1 ++ [r.2]

/-- `active_steps = steps_par.split(",") if steps_par != "all" else _STEPS`. -/
def activeSteps (steps_par : String) : List String :=
  if steps_par ≠ "all" then splitComma steps_par else _STEPS

/-- One `mlflow.run(...)` call site in `main.py`: its guard name, project
URI, entry point, pinned version, environment manager, parameter mapping,
and the side effects the source performs just before the call inside the
same `if` block (the `rf_config.json` dump for the training step, the
`MLFLOW_CONDA_CREATE_FLAGS` assignment for the test step). -/
structure StepDef where
  name : String
  uri : String
  entry_point : String := "main"
  version : Option String := none
  env_manager : String
  params : List (String × String)
  preFile : Option (String × String) := none
  preEnv : Option (String × String) := none

/-- `os.environ[key] = value`, reached only while no exception is in flight. -/
def doSetEnv (key value : String) (s : RunState) : RunState :=
  if s.failed then s
  else { s with env := fun q => if q = key then some value else s.env q,
                trace := s.trace ++ [Event.setEnvVar key value] }

/-- `json.dump(...)` into a file in the scratch directory. -/
def doWriteFile (path content : String) (s : RunState) : RunState :=
  if s.failed then s
  else { s with trace := s.trace ++ [Event.writeFile path content] }

/-- `with tempfile.TemporaryDirectory() as tmp_dir: os.chdir(tmp_dir)`. -/
def doEnter (tmp : String) (s : RunState) : RunState :=
  { s with cwd := tmp, workspacePresent := true,
           trace := s.trace ++ [Event.enterWorkspace] }

/-- The `TemporaryDirectory` context manager removing the scratch
directory when control leaves the `with` block. -/
def doDestroy (s : RunState) : RunState :=
  { s with workspacePresent := false,
           trace := s.trace ++ [Event.destroyWorkspace] }

/-- The `finally` block: `os.chdir(orig_cwd)` (with `os.chdir(here)` as a
fallback that the model, in which `orig_cwd` always exists, never takes). -/
def doRestore (orig : String) (s : RunState) : RunState :=
  { s with cwd := orig, trace := s.trace ++ [Event.restoreCwd] }

/-- `mlflow.run(uri, "main", parameters=params)`: records the invocation
and raises (sets `failed`) when the launched run exits non-zero. -/
def doInvoke (ok : String → Bool) (n u : String) (p : List (String × String))
    (s : RunState) : RunState :=
  if s.failed then s
  else { s with trace := s.trace ++ [Event.invoke n u p], failed := !(ok n) }

/-- The statements of a step's `if` block that precede its `mlflow.run`. -/
def doPre (sd : StepDef) (s : RunState) : RunState :=
  let s1 := match sd.preFile with
    | some pc => doWriteFile pc.1 pc.2 s
    | none => s
  match sd.preEnv with
  | some kv => doSetEnv kv.1 kv.2 s1
  | none => s1

/-- One `if name in active_steps: mlflow.run(...)` block. -/
def runStep (ok : String → Bool) (active : List String) (sd : StepDef)
    (s : RunState) : RunState :=
  if sd.name ∈ active then doInvoke ok sd.name sd.uri sd.params (doPre sd s)
  else s

/-- The sequence of `if`-guarded step blocks of the `with`-body. -/
def runSteps (ok : String → Bool) (active : List String) :
    List StepDef → RunState → RunState
  | [], s => s
  | sd :: l, s => runSteps ok active l (runStep ok active sd s)

/-- Step 1) Download raw data. -/
def downloadStep (cfg : Config) : StepDef :=
  { name := "download",
    uri := cfg.components_repository ++ "/get_data",
    version := some "main",
    env_manager := "conda",
    params := [("sample", cfg.etl_sample),
               ("artifact_name", "sample.csv"),
               ("artifact_type", "raw_data"),
               ("artifact_description", "Raw file as downloaded")] }

/-- Step 2) Basic cleaning. -/
def basicCleaningStep (cfg : Config) (here : String) : StepDef :=
  { name := "basic_cleaning",
    uri := here ++ "/src/basic_cleaning",
    env_manager := "local",
    params := [("input_artifact", "sample.csv:latest"),
               ("output_artifact", "clean_sample.csv"),
               ("output_type", "clean_sample"),
               ("output_description", "Data with outliers and non NYC rows removed"),
               ("min_price", cfg.basic_cleaning_min_price),
               ("max_price", cfg.basic_cleaning_max_price)] }

/-- Step 3) Data validation. -/
def dataCheckStep (cfg : Config) (here : String) : StepDef :=
  { name := "data_check",
    uri := here ++ "/src/data_check",
    env_manager := "conda",
    params := [("csv", "clean_sample.csv:latest"),
               ("ref", "clean_sample.csv:reference"),
               ("kl_threshold", cfg.data_check_kl_threshold),
               ("min_price", cfg.data_check_min_price),
               ("max_price", cfg.data_check_max_price)] }

/-- Step 4) Split dataset. -/
def dataSplitStep (cfg : Config) : StepDef :=
  { name := "data_split",
    uri := cfg.components_repository ++ "/train_val_test_split",
    version := some "main",
    env_manager := "conda",
    params := [("input", "clean_sample.csv:latest"),
               ("test_size", cfg.data_split_test_size),
               ("random_seed", cfg.data_split_random_state),
               ("stratify_by", cfg.data_split_stratify_by)] }

/-- Step 5) Train the Random Forest: first dumps the `rf_config.json`
file into the scratch directory, then launches with its absolute path. -/
def trainRandomForestStep (cfg : Config) (here tmp : String) : StepDef :=
  { name := "train_random_forest",
    uri := here ++ "/src/train_random_forest",
    env_manager := "local",
    params := [("trainval_artifact", "trainval_data.csv:latest"),
               ("val_size", cfg.data_split_val_size),
               ("random_seed", cfg.data_split_random_state),
               ("stratify_by", cfg.data_split_stratify_by),
               ("rf_config", tmp ++ "/rf_config.json"),
               ("max_tfidf_features", cfg.data_split_max_tfidf_features),
               ("output_artifact", "random_forest_export")],
    preFile := some (tmp ++ "/rf_config.json", cfg.modeling_random_forest_json) }

/-- Step 6) Test the trained model: first forces Python 3.10 via
`os.environ["MLFLOW_CONDA_CREATE_FLAGS"] = "python=3.10"`. -/
def testRegressionModelStep (cfg : Config) : StepDef :=
  { name := "test_regression_model",
    uri := cfg.components_repository ++ "/test_regression_model",
    version := some "main",
    env_manager := "conda",
    params := [("mlflow_model", "random_forest_export:production"),
               ("test_dataset", "test_data.csv:latest")],
    preEnv := some ("MLFLOW_CONDA_CREATE_FLAGS", "python=3.10") }

/-- The six `mlflow.run` call sites of `main.py`, in source order. -/
def pipeline (cfg : Config) (here tmp : String) : List StepDef :=
  [downloadStep cfg,
   basicCleaningStep cfg here,
   dataCheckStep cfg here,
   dataSplitStep cfg,
   trainRandomForestStep cfg here tmp,
   testRegressionModelStep cfg]

/-- Process state at entry of `go`: ambient environment `env0`, current
working directory `orig` (`os.getcwd()`), no scratch directory yet. -/
def initState (env0 : String → Option String) (orig : String) : RunState :=
  { env := env0, cwd := orig, workspacePresent := false, failed := false,
    trace := [] }

/-- The statements of `go` before the step blocks: the two W&B
environment-variable assignments and entering the scratch directory. -/
def preludeState (env0 : String → Option String) (cfg : Config)
    (orig tmp : String) : RunState :=
  doEnter tmp
    (doSetEnv "WANDB_RUN_GROUP" cfg.experiment_name
      (doSetEnv "WANDB_PROJECT" cfg.project_name (initState env0 orig)))

/-- Body of `go` with the computed `active_steps` passed explicitly:
prelude, the six guarded step blocks, then — in this order — the
`TemporaryDirectory` cleanup and the `finally` restoring the working
directory. -/
def goBody (ok : String → Bool) (env0 : String → Option String) (cfg : Config)
    (active : List String) (here orig tmp : String) : RunState :=
  doRestore orig
    (doDestroy
      (runSteps ok active (pipeline cfg here tmp)
        (preludeState env0 cfg orig tmp)))

/-- The `go` function of `main.py`.  `ok` gives each launched step's exit
status, `env0` the ambient process environment, `here` the repo root
(`get_original_cwd()`), `orig` the current working directory at entry and
`tmp` the name `tempfile` picks for the scratch directory. -/
def go (ok : String → Bool) (env0 : String → Option String) (cfg : Config)
    (here orig tmp : String) : RunState :=
  goBody ok env0 cfg (activeSteps cfg.steps) here orig tmp

/-- The step names launched during a run, in launch order. -/
def invokedSteps (t : List Event) : List String :=
  t.filterMap (fun e => match e with
    | Event.invoke n _ _ => some n
    | _ => none)

/-- Whether string `v` ends with string `t`. -/
def strEndsWith (v t : String) : Bool :=
  decide (v.toList.reverse.take t.toList.length = t.toList.reverse)

/-- A value of the form `name:alias` for one of the mutable aliases this
pipeline uses — an artifact reference that is not yet dereferenced to a
concrete version. -/
def usesAliasRef (v : String) : Bool :=
  ["latest", "reference", "production"].any (fun a => strEndsWith v (":" ++ a))

/-- The artifact-reference parameters each step of `main.py` declares:
for every step name, the parameter entries of its `mlflow.run` call
whose value is a `name:alias` artifact reference (the `download` step
declares none — it takes no artifact input). -/
def aliasRefParams (n : String) : List (String × String) :=
  if n = "basic_cleaning" then
    [("input_artifact", "sample.csv:latest")]
  else if n = "data_check" then
    [("csv", "clean_sample.csv:latest"), ("ref", "clean_sample.csv:reference")]
  else if n = "data_split" then
    [("input", "clean_sample.csv:latest")]
  else if n = "train_random_forest" then
    [("trainval_artifact", "trainval_data.csv:latest")]
  else if n = "test_regression_model" then
    [("mlflow_model", "random_forest_export:production"),
     ("test_dataset", "test_data.csv:latest")]
  else []

/-- Every name of `ns` up to and including the first one on which `ok`
is false: the launch prefix of a sequence of steps that aborts at its
first failure. -/
def takeUntilFail (ok : String → Bool) : List String → List String
  | [] => []
  | n :: ns => if ok n then n :: takeUntilFail ok ns else [n]

/-- The names of the steps of `l` selected by `active`, in the order of `l`. -/
def activeNames (active : List String) (l : List StepDef) : List String :=
  (l.map StepDef.name).filter (fun n => decide (n ∈ active))

/-- An event emitted by a step block (env-var set, config-file dump, or
launch), as opposed to the workspace bookkeeping events. -/
def stepEvent : Event → Bool
  | Event.setEnvVar _ _ => true
  | Event.writeFile _ _ => true
  | Event.invoke _ _ _ => true
  | _ => false

/-- The effect of a step block's pre-launch statements on the process
environment. -/
def preEnvUpd (sd : StepDef) (env : String → Option String) :
    String → Option String :=
  match sd.preEnv with
  | some kv => fun q => if q = kv.1 then some kv.2 else env q
  | none => env

/-- The events emitted by a step block's pre-launch statements. -/
def preEvents (sd : StepDef) : List Event :=
  (match sd.preFile with
    | some pc => [Event.writeFile pc.1 pc.2]
    | none => []) ++
  (match sd.preEnv with
    | some kv => [Event.setEnvVar kv.1 kv.2]
    | none => [])

end Main

namespace BasicCleaning

/-- One record of the dataframe handled by `src/basic_cleaning/run.py`:
the columns the step reads or writes, plus an opaque remainder standing
for all other columns.  `price` and the coordinates are modelled as
rationals, `last_review` as its raw string column value. -/
structure Row where
  price : ℚ
  longitude : ℚ
  latitude : ℚ
  last_review : String
  rest : String
deriving DecidableEq, Repr

/-- `Series.between(lo, hi)`: inclusive on both ends (pandas default). -/
def between (x lo hi : ℚ) : Bool := decide (lo ≤ x) && decide (x ≤ hi)

/-- The assignment `df["last_review"] = pd.to_datetime(df["last_review"])`
applied to one row, for an abstract conversion function `toDt`. -/
def convertLastReview (toDt : String → String) (r : Row) : Row :=
  { r with last_review := toDt r.last_review }

/-- The dataframe transformation performed by `go` in
`src/basic_cleaning/run.py` between reading the input CSV and writing
`clean_sample.csv`: price-range filter, `last_review` datetime
conversion, NYC bounding-box filter. -/
def go (toDt : String → String) (min_price max_price : ℚ) (df : List Row) :
    List Row :=
  let df1 := df.filter (fun r => between r.price min_price max_price)
  let df2 := df1.map (convertLastReview toDt)
  let df3 := df2.filter (fun r =>
    between r.longitude (-74.25) (-73.50) && between r.latitude 40.5 41.2)
  df3

end BasicCleaning

/-! ## Concrete fixtures used by witnesses and counterexamples -/

/-- Oracle under which every launched step exits successfully. -/
def okAll : String → Bool := fun _ => true

/-- Oracle under which the `data_check` launch raises and every other
step succeeds. -/
def okFailDataCheck : String → Bool := fun n => !(n == "data_check")

/-- An ambient process environment with none of the touched variables set. -/
def env0c : String → Option String := fun _ => none

/-- A concrete configuration running the whole pipeline. -/
def cfgBase : Main.Config :=
  { steps := "all",
    project_name := "nyc_airbnb",
    experiment_name := "development",
    components_repository := "https://github.com/components",
    etl_sample := "sample1.csv",
    basic_cleaning_min_price := "10",
    basic_cleaning_max_price := "350",
    data_check_kl_threshold := "0.2",
    data_check_min_price := "10",
    data_check_max_price := "350",
    data_split_test_size := "0.2",
    data_split_random_state := "42",
    data_split_stratify_by := "neighbourhood_group",
    data_split_val_size := "0.2",
    data_split_max_tfidf_features := "5",
    modeling_random_forest_json := "rf-config-json" }

/-- Selector naming a step (`"D"`) that is not part of the pipeline. -/
def cfgUnknown : Main.Config := { cfgBase with steps := "download,D" }

/-- Selector naming only `basic_cleaning`. -/
def cfgBC : Main.Config := { cfgBase with steps := "basic_cleaning" }

/-- Selector naming only `test_regression_model`. -/
def cfgTest : Main.Config := { cfgBase with steps := "test_regression_model" }

/-- Selector naming two steps out of their static order. -/
def cfgTwo : Main.Config := { cfgBase with steps := "data_check,download" }

/-- Selector listing every declared step in reverse order. -/
def cfgReversed : Main.Config :=
  { cfgBase with steps :=
      "test_regression_model,train_random_forest,data_split,data_check,basic_cleaning,download" }

/-! ## Helper lemmas about the orchestrator model -/

namespace Main

theorem doWriteFile_failed (p c : String) (s : RunState) :
    (doWriteFile p c s).failed = s.failed := by
  unfold doWriteFile; split <;> rfl

theorem doSetEnv_failed (k v : String) (s : RunState) :
    (doSetEnv k v s).failed = s.failed := by
  unfold doSetEnv; split <;> rfl

theorem doPre_failed (sd : StepDef) (s : RunState) :
    (doPre sd s).failed = s.failed := by
  unfold doPre
  cases sd.preFile <;> cases sd.preEnv <;>
    simp [doWriteFile_failed, doSetEnv_failed]

theorem doPre_fix (sd : StepDef) (s : RunState) (h : s.failed = true) :
    doPre sd s = s := by
  unfold doPre
  cases sd.preFile <;> cases sd.preEnv <;>
    simp [doWriteFile, doSetEnv, h]

theorem runStep_fix (ok : String → Bool) (active : List String) (sd : StepDef)
    (s : RunState) (h : s.failed = true) : runStep ok active sd s = s := by
  unfold runStep
  rw [doPre_fix sd s h]
  split
  · unfold doInvoke; rw [if_pos h]
  · rfl

theorem runSteps_fix (ok : String → Bool) (active : List String) :
    ∀ (l : List StepDef) (s : RunState), s.failed = true →
      runSteps ok active l s = s := by
  intro l
  induction l with
  | nil => intro s _; rfl
  | cons sd l ih =>
      intro s h
      rw [runSteps, runStep_fix ok active sd s h, ih s h]

theorem runStep_not_active (ok : String → Bool) (active : List String)
    (sd : StepDef) (s : RunState) (h : sd.name ∉ active) :
    runStep ok active sd s = s := by
  unfold runStep; rw [if_neg h]

theorem runStep_active (ok : String → Bool) (active : List String)
    (sd : StepDef) (s : RunState) (h : sd.name ∈ active)
    (hs : s.failed = false) :
    runStep ok active sd s =
      { env := preEnvUpd sd s.env,
        cwd := s.cwd,
        workspacePresent := s.workspacePresent,
        failed := !(ok sd.name),
        trace := s.trace ++ preEvents sd ++ [Event.invoke sd.name sd.uri sd.params] } := by
  unfold runStep doPre doInvoke preEnvUpd preEvents
  rw [if_pos h]
  cases sd.preFile <;> cases sd.preEnv <;>
    simp [doWriteFile, doSetEnv, hs]

end Main

namespace Main

theorem runSteps_append (ok : String → Bool) (active : List String) :
    ∀ (l₁ l₂ : List StepDef) (s : RunState),
      runSteps ok active (l₁ ++ l₂) s
        = runSteps ok active l₂ (runSteps ok active l₁ s) := by
  intro l₁
  induction l₁ with
  | nil => intro l₂ s; rfl
  | cons sd l ih => intro l₂ s; rw [List.cons_append, runSteps, runSteps, ih]

theorem invokedSteps_append (t u : List Event) :
    invokedSteps (t ++ u) = invokedSteps t ++ invokedSteps u := by
  simp [invokedSteps, List.filterMap_append]

theorem invokedSteps_preEvents (sd : StepDef) : invokedSteps (preEvents sd) = [] := by
  unfold preEvents
  cases sd.preFile <;> cases sd.preEnv <;> simp [invokedSteps]

theorem stepEvent_preEvents (sd : StepDef) :
    ∀ e ∈ preEvents sd, stepEvent e = true := by
  unfold preEvents
  cases sd.preFile <;> cases sd.preEnv <;> simp [stepEvent]

theorem takeUntilFail_subset (ok : String → Bool) :
    ∀ (ns : List String) (n : String), n ∈ takeUntilFail ok ns → n ∈ ns := by
  intro ns
  induction ns with
  | nil => intro n h; simp [takeUntilFail] at h
  | cons m ms ih =>
      intro n h
      unfold takeUntilFail at h
      by_cases hm : ok m = true
      · rw [if_pos hm] at h
        rcases List.mem_cons.mp h with h | h
        · exact h ▸ List.mem_cons_self m ms
        · exact List.mem_cons_of_mem m (ih n h)
      · rw [if_neg hm] at h
        rcases List.mem_singleton.mp h with h
        exact h ▸ List.mem_cons_self m ms

theorem takeUntilFail_all (ok : String → Bool) :
    ∀ (ns : List String), (∀ n ∈ ns, ok n = true) → takeUntilFail ok ns = ns := by
  intro ns
  induction ns with
  | nil => intro _; rfl
  | cons m ms ih =>
      intro h
      unfold takeUntilFail
      rw [if_pos (h m (List.mem_cons_self m ms))]
      rw [ih (fun n hn => h n (List.mem_cons_of_mem m hn))]

theorem takeUntilFail_length (ok : String → Bool) :
    ∀ (ns : List String) (k : Nat) (n : String),
      (takeUntilFail ok ns).get? k = some n → ok n = false →
      (takeUntilFail ok ns).length = k + 1 := by
  intro ns
  induction ns with
  | nil => intro k n h _; simp [takeUntilFail] at h
  | cons m ms ih =>
      intro k n h hf
      unfold takeUntilFail at h ⊢
      by_cases hm : ok m = true
      · rw [if_pos hm] at h ⊢
        cases k with
        | zero =>
            simp at h
            rw [h] at hm
            rw [hm] at hf
            exact absurd hf (by simp)
        | succ k =>
            simp only [List.get?] at h
            have := ih k n h hf
            simp [this]
      · rw [if_neg hm] at h ⊢
        cases k with
        | zero => rfl
        | succ k => simp at h

end Main

namespace Main

theorem invokedSteps_invoke (n u : String) (p : List (String × String)) :
    invokedSteps [Event.invoke n u p] = [n] := rfl

theorem takeUntilFail_cons (ok : String → Bool) (n : String) (ns : List String) :
    takeUntilFail ok (n :: ns)
      = if ok n then n :: takeUntilFail ok ns else [n] := rfl

theorem activeNames_cons (active : List String) (sd : StepDef) (l : List StepDef) :
    activeNames active (sd :: l)
      = if sd.name ∈ active then sd.name :: activeNames active l
        else activeNames active l := by
  unfold activeNames
  by_cases h : sd.name ∈ active <;> simp [List.filter, h]

/-- Master characterization of the guarded step sequence: the launched
step names are the selected names in static order up to and including the
first failure, the failure flag records whether any selected step fails,
and the step blocks leave the working directory and the scratch
workspace alone. -/
theorem runSteps_spec (ok : String → Bool) (active : List String) :
    ∀ (l : List StepDef) (s : RunState), s.failed = false →
      invokedSteps (runSteps ok active l s).trace
          = invokedSteps s.trace ++ takeUntilFail ok (activeNames active l)
      ∧ (runSteps ok active l s).failed
          = (activeNames active l).any (fun n => !(ok n))
      ∧ (runSteps ok active l s).cwd = s.cwd
      ∧ (runSteps ok active l s).workspacePresent = s.workspacePresent := by
  intro l
  induction l with
  | nil =>
      intro s hs
      simp [runSteps, activeNames, takeUntilFail, hs]
  | cons sd l ih =>
      intro s hs
      rw [runSteps, activeNames_cons]
      by_cases hn : sd.name ∈ active
      · rw [runStep_active ok active sd s hn hs, if_pos hn]
        by_cases hok : ok sd.name = true
        · have hstep : (!(ok sd.name)) = false := by rw [hok]; rfl
          have := ih { env := preEnvUpd sd s.env, cwd := s.cwd,
                       workspacePresent := s.workspacePresent,
                       failed := !(ok sd.name),
                       trace := s.trace ++ preEvents sd
                         ++ [Event.invoke sd.name sd.uri sd.params] } hstep
          rcases this with ⟨h1, h2, h3, h4⟩
          dsimp only at h1 h2 h3 h4
          refine ⟨?_, ?_, h3, h4⟩
          · rw [h1, invokedSteps_append, invokedSteps_append,
                invokedSteps_preEvents, invokedSteps_invoke]
            rw [takeUntilFail_cons, if_pos hok]
            simp
          · rw [h2]
            simp [hok]
        · have hok' : ok sd.name = false := by
            cases h : ok sd.name
            · rfl
            · exact absurd h hok
          have hfailed : (!(ok sd.name)) = true := by rw [hok']; rfl
          rw [runSteps_fix ok active l _ hfailed]
          dsimp only
          refine ⟨?_, ?_, rfl, rfl⟩
          · rw [invokedSteps_append, invokedSteps_append,
                invokedSteps_preEvents, invokedSteps_invoke]
            rw [takeUntilFail_cons, if_neg (by simp [hok'])]
            simp
          · simp [hok', hfailed]
      · rw [runStep_not_active ok active sd s hn, if_neg hn]
        exact ih s hs

end Main

namespace Main

/-- The step blocks only append step events (env-var sets, file dumps,
launches) to the trace; in particular they never emit the workspace
destruction or working-directory restoration events. -/
theorem runSteps_trace (ok : String → Bool) (active : List String) :
    ∀ (l : List StepDef) (s : RunState), ∃ t,
      (runSteps ok active l s).trace = s.trace ++ t
      ∧ ∀ e ∈ t, stepEvent e = true := by
  intro l
  induction l with
  | nil => intro s; exact ⟨[], by simp [runSteps], by simp⟩
  | cons sd l ih =>
      intro s
      rw [runSteps]
      by_cases hf : s.failed = true
      · rw [runStep_fix ok active sd s hf]
        exact ih s
      · have hs : s.failed = false := by
          cases h : s.failed
          · rfl
          · exact absurd h hf
        by_cases hn : sd.name ∈ active
        · rw [runStep_active ok active sd s hn hs]
          rcases ih { env := preEnvUpd sd s.env, cwd := s.cwd,
                      workspacePresent := s.workspacePresent,
                      failed := !(ok sd.name),
                      trace := s.trace ++ preEvents sd
                        ++ [Event.invoke sd.name sd.uri sd.params] } with ⟨t, ht, hstep⟩
          dsimp only at ht
          refine ⟨preEvents sd ++ [Event.invoke sd.name sd.uri sd.params] ++ t, ?_, ?_⟩
          · rw [ht]; simp
          · intro e he
            rcases List.mem_append.mp he with he | he
            · rcases List.mem_append.mp he with he | he
              · exact stepEvent_preEvents sd e he
              · rw [List.mem_singleton.mp he]; rfl
            · exact hstep e he
        · rw [runStep_not_active ok active sd s hn]
          exact ih s

/-- The step blocks write no environment variable other than
`MLFLOW_CONDA_CREATE_FLAGS`. -/
theorem runSteps_env (ok : String → Bool) (active : List String) (k : String) :
    ∀ (l : List StepDef) (s : RunState),
      (∀ sd ∈ l, ∀ kv, sd.preEnv = some kv → kv.1 ≠ k) →
      (runSteps ok active l s).env k = s.env k := by
  intro l
  induction l with
  | nil => intro s _; rfl
  | cons sd l ih =>
      intro s hk
      rw [runSteps]
      have hrest : ∀ sd ∈ l, ∀ kv, sd.preEnv = some kv → kv.1 ≠ k :=
        fun sd' h' => hk sd' (List.mem_cons_of_mem sd h')
      have hstep : (runStep ok active sd s).env k = s.env k := by
        by_cases hf : s.failed = true
        · rw [runStep_fix ok active sd s hf]
        · have hs : s.failed = false := by
            cases h : s.failed
            · rfl
            · exact absurd h hf
          by_cases hn : sd.name ∈ active
          · rw [runStep_active ok active sd s hn hs]
            dsimp only
            unfold preEnvUpd
            cases he : sd.preEnv with
            | none => rfl
            | some kv =>
                have : kv.1 ≠ k := hk sd (List.mem_cons_self sd l) kv he
                simp [Ne.symm this]
          · rw [runStep_not_active ok active sd s hn]
      rw [ih (runStep ok active sd s) hrest, hstep]

theorem invoke_not_mem_preEvents (sd : StepDef) (n u : String)
    (p : List (String × String)) : Event.invoke n u p ∉ preEvents sd := by
  unfold preEvents
  cases sd.preFile <;> cases sd.preEnv <;> simp

/-- Every launch event in the trace produced by the step blocks carries
the URI and the parameter mapping statically declared for that step. -/
theorem invoke_mem_runSteps (ok : String → Bool) (active : List String)
    (n u : String) (p : List (String × String)) :
    ∀ (l : List StepDef) (s : RunState),
      Event.invoke n u p ∈ (runSteps ok active l s).trace →
      Event.invoke n u p ∈ s.trace
      ∨ ∃ sd ∈ l, sd.name = n ∧ sd.uri = u ∧ sd.params = p := by
  intro l
  induction l with
  | nil => intro s h; exact Or.inl h
  | cons sd l ih =>
      intro s h
      rw [runSteps] at h
      rcases ih (runStep ok active sd s) h with h' | ⟨sd', hsd', hprop⟩
      · by_cases hf : s.failed = true
        · rw [runStep_fix ok active sd s hf] at h'
          exact Or.inl h'
        · have hs : s.failed = false := by
            cases hh : s.failed
            · rfl
            · exact absurd hh hf
          by_cases hn : sd.name ∈ active
          · rw [runStep_active ok active sd s hn hs] at h'
            dsimp only at h'
            rcases List.mem_append.mp h' with h'' | h''
            · rcases List.mem_append.mp h'' with h3 | h3
              · exact Or.inl h3
              · exact absurd h3 (invoke_not_mem_preEvents sd n u p)
            · have := List.mem_singleton.mp h''
              injection this with e1 e2 e3
              exact Or.inr ⟨sd, List.mem_cons_self sd l, e1.symm, e2.symm, e3.symm⟩
          · rw [runStep_not_active ok active sd s hn] at h'
            exact Or.inl h'
      · exact Or.inr ⟨sd', List.mem_cons_of_mem sd hsd', hprop⟩

end Main

namespace Main

theorem preludeState_failed (env0 : String → Option String) (cfg : Config)
    (orig tmp : String) : (preludeState env0 cfg orig tmp).failed = false := rfl

theorem preludeState_trace (env0 : String → Option String) (cfg : Config)
    (orig tmp : String) :
    (preludeState env0 cfg orig tmp).trace
      = [Event.setEnvVar "WANDB_PROJECT" cfg.project_name,
         Event.setEnvVar "WANDB_RUN_GROUP" cfg.experiment_name,
         Event.enterWorkspace] := rfl

theorem preludeState_cwd (env0 : String → Option String) (cfg : Config)
    (orig tmp : String) : (preludeState env0 cfg orig tmp).cwd = tmp := rfl

theorem preludeState_ws (env0 : String → Option String) (cfg : Config)
    (orig tmp : String) :
    (preludeState env0 cfg orig tmp).workspacePresent = true := rfl

theorem pipeline_names (cfg : Config) (here tmp : String) :
    (pipeline cfg here tmp).map StepDef.name = _STEPS := rfl

theorem invokedSteps_doDestroy (s : RunState) :
    invokedSteps (doDestroy s).trace = invokedSteps s.trace := by
  unfold doDestroy
  dsimp only
  rw [invokedSteps_append]
  simp [invokedSteps]

theorem invokedSteps_doRestore (orig : String) (s : RunState) :
    invokedSteps (doRestore orig s).trace = invokedSteps s.trace := by
  unfold doRestore
  dsimp only
  rw [invokedSteps_append]
  simp [invokedSteps]

theorem doDestroy_failed (s : RunState) : (doDestroy s).failed = s.failed := rfl

theorem doRestore_failed (orig : String) (s : RunState) :
    (doRestore orig s).failed = s.failed := rfl

theorem doDestroy_env (s : RunState) : (doDestroy s).env = s.env := rfl

theorem doRestore_env (orig : String) (s : RunState) :
    (doRestore orig s).env = s.env := rfl

/-- The names whose guards select them out of the static order, for the
concrete pipeline of `main.py`. -/
theorem activeNames_pipeline (active : List String) (cfg : Config)
    (here tmp : String) :
    activeNames active (pipeline cfg here tmp)
      = _STEPS.filter (fun n => decide (n ∈ active)) := by
  unfold activeNames
  rw [pipeline_names]

/-- Run-level characterization: a run launches the selected step names in
static order up to and including the first failing one, and fails iff
some selected step fails. -/
theorem go_spec (ok : String → Bool) (env0 : String → Option String)
    (cfg : Config) (here orig tmp : String) :
    invokedSteps (go ok env0 cfg here orig tmp).trace
        = takeUntilFail ok
            (_STEPS.filter (fun n => decide (n ∈ activeSteps cfg.steps)))
    ∧ (go ok env0 cfg here orig tmp).failed
        = (_STEPS.filter (fun n => decide (n ∈ activeSteps cfg.steps))).any
            (fun n => !(ok n)) := by
  have hmaster := runSteps_spec ok (activeSteps cfg.steps) (pipeline cfg here tmp)
    (preludeState env0 cfg orig tmp) (preludeState_failed env0 cfg orig tmp)
  rcases hmaster with ⟨h1, h2, _, _⟩
  rw [activeNames_pipeline] at h1 h2
  constructor
  · show invokedSteps (doRestore orig (doDestroy _)).trace = _
    rw [invokedSteps_doRestore, invokedSteps_doDestroy, h1, preludeState_trace]
    simp [invokedSteps]
  · show (doRestore orig (doDestroy _)).failed = _
    rw [doRestore_failed, doDestroy_failed, h2]

end Main

namespace Main

theorem runStep_congr_active (ok : String → Bool) (a₁ a₂ : List String)
    (h : ∀ n, n ∈ a₁ ↔ n ∈ a₂) (sd : StepDef) (s : RunState) :
    runStep ok a₁ sd s = runStep ok a₂ sd s := by
  unfold runStep
  by_cases hn : sd.name ∈ a₁
  · rw [if_pos hn, if_pos ((h sd.name).mp hn)]
  · rw [if_neg hn, if_neg (fun hc => hn ((h sd.name).mpr hc))]

theorem runSteps_congr_active (ok : String → Bool) (a₁ a₂ : List String)
    (h : ∀ n, n ∈ a₁ ↔ n ∈ a₂) :
    ∀ (l : List StepDef) (s : RunState),
      runSteps ok a₁ l s = runSteps ok a₂ l s := by
  intro l
  induction l with
  | nil => intro s; rfl
  | cons sd l ih =>
      intro s
      rw [runSteps, runSteps, runStep_congr_active ok a₁ a₂ h sd s, ih]

end Main

/-! ## Claim theorems -/

/-- C2: for every run — any step-failure pattern `ok`, any configuration —
the scratch workspace is absent after `go` returns and the caller's
original working directory is restored. -/
theorem C2_cleanup_always_runs (ok : String → Bool)
    (env0 : String → Option String) (cfg : Main.Config) (here orig tmp : String) :
    (Main.go ok env0 cfg here orig tmp).workspacePresent = false
    ∧ (Main.go ok env0 cfg here orig tmp).cwd = orig :=
  ⟨rfl, rfl⟩

/-- C4: when every launched step succeeds, exactly the declared steps
whose names are members of the selector subset are launched, in the
statically declared pipeline order (a sublist of `_STEPS`), each at most
once — whatever order the selector lists the names in. -/
theorem C4_selection_follows_static_order (ok : String → Bool)
    (env0 : String → Option String) (cfg : Main.Config) (here orig tmp : String)
    (h : ∀ n, ok n = true) :
    Main.invokedSteps (Main.go ok env0 cfg here orig tmp).trace
        = Main._STEPS.filter (fun n => decide (n ∈ Main.activeSteps cfg.steps))
    ∧ (Main.invokedSteps (Main.go ok env0 cfg here orig tmp).trace).Sublist
        Main._STEPS
    ∧ (Main.invokedSteps (Main.go ok env0 cfg here orig tmp).trace).Nodup := by
  have hspec := (Main.go_spec ok env0 cfg here orig tmp).1
  have hall : Main.takeUntilFail ok
      (Main._STEPS.filter (fun n => decide (n ∈ Main.activeSteps cfg.steps)))
      = Main._STEPS.filter (fun n => decide (n ∈ Main.activeSteps cfg.steps)) :=
    Main.takeUntilFail_all ok _ (fun n _ => h n)
  have heq : Main.invokedSteps (Main.go ok env0 cfg here orig tmp).trace
      = Main._STEPS.filter (fun n => decide (n ∈ Main.activeSteps cfg.steps)) := by
    rw [hspec, hall]
  have hsub : (Main.invokedSteps (Main.go ok env0 cfg here orig tmp).trace).Sublist
      Main._STEPS := by
    rw [heq]; exact List.filter_sublist Main._STEPS
  exact ⟨heq, hsub, hsub.nodup (by decide)⟩

/-- C4 witness: selector `"data_check,download"` launches `download` then
`data_check`, in the static order, not the selector order. -/
theorem C4_selection_follows_static_order_witness :
    (∀ n, okAll n = true)
    ∧ (Main.invokedSteps (Main.go okAll env0c cfgTwo "HERE" "ORIG" "TMP").trace
          = Main._STEPS.filter (fun n => decide (n ∈ Main.activeSteps cfgTwo.steps))
       ∧ (Main.invokedSteps (Main.go okAll env0c cfgTwo "HERE" "ORIG" "TMP").trace).Sublist
           Main._STEPS
       ∧ (Main.invokedSteps (Main.go okAll env0c cfgTwo "HERE" "ORIG" "TMP").trace).Nodup) :=
  ⟨fun _ => rfl,
   C4_selection_follows_static_order okAll env0c cfgTwo "HERE" "ORIG" "TMP" (fun _ => rfl)⟩

/-- C1 counterexample: with selector `"download,D"`, where `"D"` is not a
declared step, the run does not abort: the `download` step is still
launched and the run finishes unfailed — refuting the claim that a
selector containing an unknown name aborts the run before any step
executes. -/
theorem C1_counterexample :
    "D" ∈ Main.activeSteps cfgUnknown.steps
    ∧ "D" ∉ Main._STEPS
    ∧ Main.invokedSteps (Main.go okAll env0c cfgUnknown "HERE" "ORIG" "TMP").trace
        = ["download"]
    ∧ (Main.go okAll env0c cfgUnknown "HERE" "ORIG" "TMP").failed = false := by
  decide

/-- C1 amended: unknown names in the selector are silently ignored — the
run performs no validation, never aborts because of them, and launches
exactly the declared steps whose names appear in the selector. -/
theorem C1_unknown_selector_names_ignored (ok : String → Bool)
    (env0 : String → Option String) (cfg : Main.Config) (here orig tmp : String)
    (h : ∀ n, ok n = true) :
    (Main.go ok env0 cfg here orig tmp).failed = false
    ∧ Main.invokedSteps (Main.go ok env0 cfg here orig tmp).trace
        = Main._STEPS.filter (fun n => decide (n ∈ Main.activeSteps cfg.steps)) := by
  have hspec := Main.go_spec ok env0 cfg here orig tmp
  refine ⟨?_, ?_⟩
  · rw [hspec.2]
    rw [List.any_eq_false]
    intro n _
    rw [h n]
    decide
  · rw [hspec.1]
    exact Main.takeUntilFail_all ok _ (fun n _ => h n)

/-- C1 amended witness: the `"download,D"` selector run, with every step
succeeding. -/
theorem C1_unknown_selector_names_ignored_witness :
    (∀ n, okAll n = true)
    ∧ ((Main.go okAll env0c cfgUnknown "HERE" "ORIG" "TMP").failed = false
       ∧ Main.invokedSteps (Main.go okAll env0c cfgUnknown "HERE" "ORIG" "TMP").trace
           = Main._STEPS.filter (fun n => decide (n ∈ Main.activeSteps cfgUnknown.steps))) :=
  ⟨fun _ => rfl,
   C1_unknown_selector_names_ignored okAll env0c cfgUnknown "HERE" "ORIG" "TMP" (fun _ => rfl)⟩

/-- C3: if the step launched at position `k` of a run fails, it is the
last step launched in that run — no later step is invoked — and the
failure is propagated to the caller. -/
theorem C3_failure_aborts_remaining_steps (ok : String → Bool)
    (env0 : String → Option String) (cfg : Main.Config) (here orig tmp : String)
    (k : Nat) (n : String)
    (hk : (Main.invokedSteps (Main.go ok env0 cfg here orig tmp).trace).get? k
        = some n)
    (hf : ok n = false) :
    (Main.invokedSteps (Main.go ok env0 cfg here orig tmp).trace).length = k + 1
    ∧ (Main.go ok env0 cfg here orig tmp).failed = true := by
  have hspec := Main.go_spec ok env0 cfg here orig tmp
  rw [hspec.1] at hk
  constructor
  · rw [hspec.1]
    exact Main.takeUntilFail_length ok _ k n hk hf
  · rw [hspec.2]
    have hmem : n ∈ Main.takeUntilFail ok
        (Main._STEPS.filter (fun m => decide (m ∈ Main.activeSteps cfg.steps))) :=
      List.get?_mem hk
    have hmem' := Main.takeUntilFail_subset ok _ n hmem
    rw [List.any_eq_true]
    exact ⟨n, hmem', by rw [hf]; rfl⟩

/-- C3 witness: with `data_check` failing and selector `"all"`, the run
launches `download`, `basic_cleaning`, `data_check` (three steps, the
failing one at index 2 last) and propagates the failure. -/
theorem C3_failure_aborts_remaining_steps_witness :
    ((Main.invokedSteps
          (Main.go okFailDataCheck env0c cfgBase "HERE" "ORIG" "TMP").trace).get? 2
        = some "data_check"
     ∧ okFailDataCheck "data_check" = false)
    ∧ ((Main.invokedSteps
          (Main.go okFailDataCheck env0c cfgBase "HERE" "ORIG" "TMP").trace).length
          = 2 + 1
       ∧ (Main.go okFailDataCheck env0c cfgBase "HERE" "ORIG" "TMP").failed = true) :=
  ⟨⟨by decide, by decide⟩,
   C3_failure_aborts_remaining_steps okFailDataCheck env0c cfgBase "HERE" "ORIG" "TMP"
     2 "data_check" (by decide) (by decide)⟩

/-- C5: running with the sentinel selector `"all"` is the same run —
identical trace, identical launches with identical parameter mappings in
identical order, identical final state — as running with any selector
that names exactly the declared steps, the rest of the configuration
being identical. -/
theorem C5_all_equals_explicit_selector (ok : String → Bool)
    (env0 : String → Option String) (cfg : Main.Config) (sel : String)
    (hsel : ∀ n, n ∈ Main.activeSteps sel ↔ n ∈ Main._STEPS)
    (here orig tmp : String) :
    Main.go ok env0 { cfg with steps := "all" } here orig tmp
      = Main.go ok env0 { cfg with steps := sel } here orig tmp := by
  show Main.doRestore orig (Main.doDestroy (Main.runSteps ok (Main.activeSteps "all")
        (Main.pipeline cfg here tmp) (Main.preludeState env0 cfg orig tmp)))
      = Main.doRestore orig (Main.doDestroy (Main.runSteps ok (Main.activeSteps sel)
        (Main.pipeline cfg here tmp) (Main.preludeState env0 cfg orig tmp)))
  have h : ∀ n, n ∈ Main.activeSteps "all" ↔ n ∈ Main.activeSteps sel := by
    intro n
    rw [show Main.activeSteps "all" = Main._STEPS from rfl]
    exact (hsel n).symm
  exact congrArg (Main.doRestore orig) (congrArg Main.doDestroy
    (Main.runSteps_congr_active ok _ _ h (Main.pipeline cfg here tmp)
      (Main.preludeState env0 cfg orig tmp)))

/-- C5 witness: selector listing all six steps in reverse order gives the
same run as `"all"`. -/
theorem C5_all_equals_explicit_selector_witness :
    (∀ n, n ∈ Main.activeSteps cfgReversed.steps ↔ n ∈ Main._STEPS)
    ∧ Main.go okAll env0c { cfgBase with steps := "all" } "HERE" "ORIG" "TMP"
        = Main.go okAll env0c { cfgBase with steps := cfgReversed.steps }
            "HERE" "ORIG" "TMP" := by
  have hsel : ∀ n, n ∈ Main.activeSteps cfgReversed.steps ↔ n ∈ Main._STEPS := by
    intro n
    rw [show Main.activeSteps cfgReversed.steps
        = ["test_regression_model", "train_random_forest", "data_split",
           "data_check", "basic_cleaning", "download"] from by decide]
    unfold Main._STEPS
    simp only [List.mem_cons, List.not_mem_nil]
    tauto
  exact ⟨hsel,
    C5_all_equals_explicit_selector okAll env0c cfgBase cfgReversed.steps hsel
      "HERE" "ORIG" "TMP"⟩

namespace Main

theorem go_trace_eq (ok : String → Bool) (env0 : String → Option String)
    (cfg : Config) (here orig tmp : String) :
    (go ok env0 cfg here orig tmp).trace
      = (runSteps ok (activeSteps cfg.steps) (pipeline cfg here tmp)
          (preludeState env0 cfg orig tmp)).trace
        ++ [Event.destroyWorkspace, Event.restoreCwd] := by
  show (doRestore orig (doDestroy _)).trace = _
  unfold doRestore doDestroy
  dsimp only
  rw [List.append_assoc]
  rfl

end Main

/-- C6 counterexample: in the selector `"basic_cleaning"` run, the
`basic_cleaning` step is launched with the parameter
`input_artifact = "sample.csv:latest"` — an unresolved `name:alias`
artifact reference, not one dereferenced to a concrete version by the
orchestrator. -/
theorem C6_counterexample :
    Main.Event.invoke "basic_cleaning" ("HERE" ++ "/src/basic_cleaning")
        (Main.basicCleaningStep cfgBC "HERE").params
      ∈ (Main.go okAll env0c cfgBC "HERE" "ORIG" "TMP").trace
    ∧ ("input_artifact", "sample.csv:latest")
        ∈ (Main.basicCleaningStep cfgBC "HERE").params
    ∧ Main.usesAliasRef "sample.csv:latest" = true := by
  decide

/-- C6 amended: for every step a run launches, the parameter mapping
passed at invocation carries every one of the step's declared artifact
references verbatim as an unresolved `name:alias` string
(`basic_cleaning`'s `input_artifact`, `data_check`'s `csv` and `ref`,
`data_split`'s `input`, `train_random_forest`'s `trainval_artifact`,
`test_regression_model`'s `mlflow_model` and `test_dataset`);
dereferencing to a concrete version is left to the step itself, not done
by the orchestrator before the launch. -/
theorem C6_artifact_refs_passed_unresolved (ok : String → Bool)
    (env0 : String → Option String) (cfg : Main.Config) (here orig tmp : String)
    (n u : String) (p : List (String × String))
    (h : Main.Event.invoke n u p ∈ (Main.go ok env0 cfg here orig tmp).trace) :
    ∀ kv ∈ Main.aliasRefParams n, kv ∈ p ∧ Main.usesAliasRef kv.2 = true := by
  rw [Main.go_trace_eq] at h
  rcases List.mem_append.mp h with h | h
  · rcases Main.invoke_mem_runSteps ok (Main.activeSteps cfg.steps)
      n u p (Main.pipeline cfg here tmp)
      (Main.preludeState env0 cfg orig tmp) h with h' | ⟨sd, hsd, hname, _, hparams⟩
    · rw [Main.preludeState_trace] at h'
      simp at h'
    · simp only [Main.pipeline, List.mem_cons, List.not_mem_nil, or_false] at hsd
      subst hname
      subst hparams
      rcases hsd with h1 | h1 | h1 | h1 | h1 | h1 <;> subst h1 <;> intro kv hkv
      · rw [show Main.aliasRefParams (Main.downloadStep cfg).name = [] from rfl]
          at hkv
        simp at hkv
      · rw [show Main.aliasRefParams (Main.basicCleaningStep cfg here).name
            = [("input_artifact", "sample.csv:latest")] from rfl] at hkv
        rw [List.mem_singleton] at hkv
        subst hkv
        refine ⟨?_, by decide⟩
        simp [Main.basicCleaningStep]
      · rw [show Main.aliasRefParams (Main.dataCheckStep cfg here).name
            = [("csv", "clean_sample.csv:latest"),
               ("ref", "clean_sample.csv:reference")] from rfl] at hkv
        rcases List.mem_cons.mp hkv with hkv | hkv
        · subst hkv
          refine ⟨?_, by decide⟩
          simp [Main.dataCheckStep]
        · rw [List.mem_singleton] at hkv
          subst hkv
          refine ⟨?_, by decide⟩
          simp [Main.dataCheckStep]
      · rw [show Main.aliasRefParams (Main.dataSplitStep cfg).name
            = [("input", "clean_sample.csv:latest")] from rfl] at hkv
        rw [List.mem_singleton] at hkv
        subst hkv
        refine ⟨?_, by decide⟩
        simp [Main.dataSplitStep]
      · rw [show Main.aliasRefParams (Main.trainRandomForestStep cfg here tmp).name
            = [("trainval_artifact", "trainval_data.csv:latest")] from rfl] at hkv
        rw [List.mem_singleton] at hkv
        subst hkv
        refine ⟨?_, by decide⟩
        simp [Main.trainRandomForestStep]
      · rw [show Main.aliasRefParams (Main.testRegressionModelStep cfg).name
            = [("mlflow_model", "random_forest_export:production"),
               ("test_dataset", "test_data.csv:latest")] from rfl] at hkv
        rcases List.mem_cons.mp hkv with hkv | hkv
        · subst hkv
          refine ⟨?_, by decide⟩
          simp [Main.testRegressionModelStep]
        · rw [List.mem_singleton] at hkv
          subst hkv
          refine ⟨?_, by decide⟩
          simp [Main.testRegressionModelStep]
  · simp at h

/-- C6 amended witness: the full-pipeline run launches `data_check` with
both of its declared alias references (`csv = "clean_sample.csv:latest"`
and `ref = "clean_sample.csv:reference"`) passed verbatim. -/
theorem C6_artifact_refs_passed_unresolved_witness :
    (Main.Event.invoke "data_check" ("HERE" ++ "/src/data_check")
        (Main.dataCheckStep cfgBase "HERE").params
      ∈ (Main.go okAll env0c cfgBase "HERE" "ORIG" "TMP").trace)
    ∧ (∀ kv ∈ Main.aliasRefParams "data_check",
        kv ∈ (Main.dataCheckStep cfgBase "HERE").params
        ∧ Main.usesAliasRef kv.2 = true) :=
  ⟨by decide,
   C6_artifact_refs_passed_unresolved okAll env0c cfgBase "HERE" "ORIG" "TMP"
     "data_check" ("HERE" ++ "/src/data_check")
     (Main.dataCheckStep cfgBase "HERE").params (by decide)⟩

/-- C7 counterexample: in a concrete full run the trace has thirteen
events, with `destroyWorkspace` at index 11 strictly before `restoreCwd`
at index 12 — the workspace is destroyed before, not after, the working
directory is restored. -/
theorem C7_counterexample :
    (Main.go okAll env0c cfgBase "HERE" "ORIG" "TMP").trace.length = 13
    ∧ (Main.go okAll env0c cfgBase "HERE" "ORIG" "TMP").trace.get? 11
        = some Main.Event.destroyWorkspace
    ∧ (Main.go okAll env0c cfgBase "HERE" "ORIG" "TMP").trace.get? 12
        = some Main.Event.restoreCwd := by
  decide

/-- C7 amended: on every exit path the last two events of a run are the
workspace destruction followed by the working-directory restoration —
destruction happens before restoration (and neither happens earlier in
the run). -/
theorem C7_destroy_then_restore (ok : String → Bool)
    (env0 : String → Option String) (cfg : Main.Config) (here orig tmp : String) :
    ∃ t, (Main.go ok env0 cfg here orig tmp).trace
        = t ++ [Main.Event.destroyWorkspace, Main.Event.restoreCwd]
      ∧ Main.Event.destroyWorkspace ∉ t
      ∧ Main.Event.restoreCwd ∉ t := by
  rcases Main.runSteps_trace ok (Main.activeSteps cfg.steps)
    (Main.pipeline cfg here tmp) (Main.preludeState env0 cfg orig tmp)
    with ⟨t, ht, hstep⟩
  refine ⟨(Main.preludeState env0 cfg orig tmp).trace ++ t, ?_, ?_, ?_⟩
  · rw [Main.go_trace_eq, ht]
  · intro hmem
    rcases List.mem_append.mp hmem with h | h
    · rw [Main.preludeState_trace] at h
      simp at h
    · have := hstep _ h
      simp [Main.stepEvent] at this
  · intro hmem
    rcases List.mem_append.mp hmem with h | h
    · rw [Main.preludeState_trace] at h
      simp at h
    · have := hstep _ h
      simp [Main.stepEvent] at this

namespace Main

/-- No step block of this pipeline writes an environment variable other
than `MLFLOW_CONDA_CREATE_FLAGS`. -/
theorem pipeline_preEnv_only_mlflow (cfg : Config) (here tmp : String) :
    ∀ sd ∈ pipeline cfg here tmp, ∀ kv : String × String,
      sd.preEnv = some kv → kv.1 = "MLFLOW_CONDA_CREATE_FLAGS" := by
  intro sd hsd kv hkv
  simp only [pipeline, List.mem_cons, List.not_mem_nil, or_false] at hsd
  rcases hsd with h1 | h1 | h1 | h1 | h1 | h1 <;> subst h1
  · simp [downloadStep] at hkv
  · simp [basicCleaningStep] at hkv
  · simp [dataCheckStep] at hkv
  · simp [dataSplitStep] at hkv
  · simp [trainRandomForestStep] at hkv
  · simp [testRegressionModelStep] at hkv
    rw [← hkv]

end Main

/-- C8 counterexample: starting from an environment in which neither
grouping variable is set, after the run returns the process environment
still holds `WANDB_PROJECT = project_name` and
`WANDB_RUN_GROUP = experiment_name` — the mutation persists beyond the
run, refuting the claim that this state lasts only for the run's
duration. -/
theorem C8_counterexample :
    env0c "WANDB_PROJECT" = none
    ∧ env0c "WANDB_RUN_GROUP" = none
    ∧ (Main.go okAll env0c cfgBase "HERE" "ORIG" "TMP").env "WANDB_PROJECT"
        = some cfgBase.project_name
    ∧ (Main.go okAll env0c cfgBase "HERE" "ORIG" "TMP").env "WANDB_RUN_GROUP"
        = some cfgBase.experiment_name :=
  ⟨rfl, rfl, rfl, rfl⟩

/-- C8 amended: the first two events of every run set `WANDB_PROJECT` to
`project_name` and `WANDB_RUN_GROUP` to `experiment_name` (before the
scratch directory is entered and thus before any step can launch), but
the assignments are never undone: when `go` returns, the process
environment still holds both values. -/
theorem C8_grouping_context_set_early_persists (ok : String → Bool)
    (env0 : String → Option String) (cfg : Main.Config) (here orig tmp : String) :
    (Main.go ok env0 cfg here orig tmp).trace.take 3
      = [Main.Event.setEnvVar "WANDB_PROJECT" cfg.project_name,
         Main.Event.setEnvVar "WANDB_RUN_GROUP" cfg.experiment_name,
         Main.Event.enterWorkspace]
    ∧ (Main.go ok env0 cfg here orig tmp).env "WANDB_PROJECT"
        = some cfg.project_name
    ∧ (Main.go ok env0 cfg here orig tmp).env "WANDB_RUN_GROUP"
        = some cfg.experiment_name := by
  have honly := Main.pipeline_preEnv_only_mlflow cfg here tmp
  have hproj : ∀ sd ∈ Main.pipeline cfg here tmp, ∀ kv : String × String,
      sd.preEnv = some kv → kv.1 ≠ "WANDB_PROJECT" := by
    intro sd hsd kv hkv
    rw [honly sd hsd kv hkv]
    decide
  have hgrp : ∀ sd ∈ Main.pipeline cfg here tmp, ∀ kv : String × String,
      sd.preEnv = some kv → kv.1 ≠ "WANDB_RUN_GROUP" := by
    intro sd hsd kv hkv
    rw [honly sd hsd kv hkv]
    decide
  refine ⟨?_, ?_, ?_⟩
  · rcases Main.runSteps_trace ok (Main.activeSteps cfg.steps)
      (Main.pipeline cfg here tmp) (Main.preludeState env0 cfg orig tmp)
      with ⟨t, ht, _⟩
    rw [Main.go_trace_eq, ht, Main.preludeState_trace]
    simp
  · show (Main.runSteps ok (Main.activeSteps cfg.steps) (Main.pipeline cfg here tmp)
        (Main.preludeState env0 cfg orig tmp)).env "WANDB_PROJECT" = _
    rw [Main.runSteps_env ok (Main.activeSteps cfg.steps) "WANDB_PROJECT"
        (Main.pipeline cfg here tmp) (Main.preludeState env0 cfg orig tmp) hproj]
    rfl
  · show (Main.runSteps ok (Main.activeSteps cfg.steps) (Main.pipeline cfg here tmp)
        (Main.preludeState env0 cfg orig tmp)).env "WANDB_RUN_GROUP" = _
    rw [Main.runSteps_env ok (Main.activeSteps cfg.steps) "WANDB_RUN_GROUP"
        (Main.pipeline cfg here tmp) (Main.preludeState env0 cfg orig tmp) hgrp]
    rfl

namespace Main

/-- Splitting the pipeline at its last step. -/
theorem go_last_step (ok : String → Bool) (env0 : String → Option String)
    (cfg : Config) (here orig tmp : String) :
    go ok env0 cfg here orig tmp
      = doRestore orig (doDestroy (runStep ok (activeSteps cfg.steps)
          (testRegressionModelStep cfg)
          (runSteps ok (activeSteps cfg.steps)
            [downloadStep cfg, basicCleaningStep cfg here, dataCheckStep cfg here,
             dataSplitStep cfg, trainRandomForestStep cfg here tmp]
            (preludeState env0 cfg orig tmp)))) := by
  show doRestore orig (doDestroy (runSteps ok (activeSteps cfg.steps)
      (pipeline cfg here tmp) (preludeState env0 cfg orig tmp))) = _
  rw [show pipeline cfg here tmp
      = [downloadStep cfg, basicCleaningStep cfg here, dataCheckStep cfg here,
         dataSplitStep cfg, trainRandomForestStep cfg here tmp]
        ++ [testRegressionModelStep cfg] from rfl,
      runSteps_append]
  rfl

/-- Explicit form of the `test_regression_model` block when it is
selected and reached with no failure in flight: the
`MLFLOW_CONDA_CREATE_FLAGS` assignment happens, then the launch. -/
theorem runStep_test_spec (ok : String → Bool) (active : List String)
    (cfg : Config) (s : RunState)
    (hn : "test_regression_model" ∈ active) (hs : s.failed = false) :
    runStep ok active (testRegressionModelStep cfg) s
      = { env := fun q => if q = "MLFLOW_CONDA_CREATE_FLAGS"
              then some "python=3.10" else s.env q,
          cwd := s.cwd,
          workspacePresent := s.workspacePresent,
          failed := !(ok "test_regression_model"),
          trace := s.trace
            ++ [Event.setEnvVar "MLFLOW_CONDA_CREATE_FLAGS" "python=3.10",
                Event.invoke "test_regression_model"
                  (cfg.components_repository ++ "/test_regression_model")
                  [("mlflow_model", "random_forest_export:production"),
                   ("test_dataset", "test_data.csv:latest")]] } := by
  rw [runStep_active ok active (testRegressionModelStep cfg) s hn hs]
  simp [preEnvUpd, preEvents, testRegressionModelStep, List.append_assoc]

/-- If the test step's launch event appears in the final trace but not in
the trace before its block, the step must be selected and the prior
blocks must not have failed. -/
theorem last_step_analysis (ok : String → Bool) (active : List String)
    (cfg : Config) (orig : String) (s : RunState)
    (hnot : "test_regression_model" ∉ invokedSteps s.trace)
    (h : "test_regression_model" ∈ invokedSteps
        (doRestore orig (doDestroy
          (runStep ok active (testRegressionModelStep cfg) s))).trace) :
    "test_regression_model" ∈ active ∧ s.failed = false := by
  rw [invokedSteps_doRestore, invokedSteps_doDestroy] at h
  by_cases hactive : "test_regression_model" ∈ active
  · refine ⟨hactive, ?_⟩
    by_cases hfail : s.failed = true
    · rw [runStep_fix ok active (testRegressionModelStep cfg) s hfail] at h
      exact absurd h hnot
    · cases hf : s.failed
      · rfl
      · exact absurd hf hfail
  · rw [runStep_not_active ok active (testRegressionModelStep cfg) s hactive] at h
    exact absurd h hnot

end Main

/-- C9: whenever a run launches `test_regression_model`, the event
setting `MLFLOW_CONDA_CREATE_FLAGS` to `"python=3.10"` happens
immediately before the launch, only workspace cleanup events follow, and
when `go` returns the process environment still holds the value — the
mutation is never unset or restored on any exit path (the launch itself
may fail; the variable stays set). -/
theorem C9_conda_flags_set_before_test_and_persist (ok : String → Bool)
    (env0 : String → Option String) (cfg : Main.Config) (here orig tmp : String)
    (h : "test_regression_model"
        ∈ Main.invokedSteps (Main.go ok env0 cfg here orig tmp).trace) :
    ∃ t, (Main.go ok env0 cfg here orig tmp).trace
        = t ++ [Main.Event.setEnvVar "MLFLOW_CONDA_CREATE_FLAGS" "python=3.10",
                Main.Event.invoke "test_regression_model"
                  (cfg.components_repository ++ "/test_regression_model")
                  [("mlflow_model", "random_forest_export:production"),
                   ("test_dataset", "test_data.csv:latest")],
                Main.Event.destroyWorkspace, Main.Event.restoreCwd]
      ∧ (Main.go ok env0 cfg here orig tmp).env "MLFLOW_CONDA_CREATE_FLAGS"
          = some "python=3.10" := by
  have hgo := Main.go_last_step ok env0 cfg here orig tmp
  have hspec5 := Main.runSteps_spec ok (Main.activeSteps cfg.steps)
    [Main.downloadStep cfg, Main.basicCleaningStep cfg here,
     Main.dataCheckStep cfg here, Main.dataSplitStep cfg,
     Main.trainRandomForestStep cfg here tmp]
    (Main.preludeState env0 cfg orig tmp)
    (Main.preludeState_failed env0 cfg orig tmp)
  rcases hspec5 with ⟨ht5, _, _, _⟩
  have hnot : "test_regression_model" ∉ Main.invokedSteps
      (Main.runSteps ok (Main.activeSteps cfg.steps)
        [Main.downloadStep cfg, Main.basicCleaningStep cfg here,
         Main.dataCheckStep cfg here, Main.dataSplitStep cfg,
         Main.trainRandomForestStep cfg here tmp]
        (Main.preludeState env0 cfg orig tmp)).trace := by
    rw [ht5]
    intro hmem
    rw [show Main.invokedSteps (Main.preludeState env0 cfg orig tmp).trace = []
        from rfl] at hmem
    rw [List.nil_append] at hmem
    have hsub := Main.takeUntilFail_subset ok _ _ hmem
    unfold Main.activeNames at hsub
    have hin := (List.mem_filter.mp hsub).1
    rw [show [Main.downloadStep cfg, Main.basicCleaningStep cfg here,
        Main.dataCheckStep cfg here, Main.dataSplitStep cfg,
        Main.trainRandomForestStep cfg here tmp].map Main.StepDef.name
        = ["download", "basic_cleaning", "data_check", "data_split",
           "train_random_forest"] from rfl] at hin
    simp at hin
  rw [hgo] at h
  rcases Main.last_step_analysis ok (Main.activeSteps cfg.steps) cfg orig _ hnot h
    with ⟨hactive, hfail⟩
  rw [hgo, Main.runStep_test_spec ok (Main.activeSteps cfg.steps) cfg _ hactive hfail]
  refine ⟨(Main.runSteps ok (Main.activeSteps cfg.steps)
    [Main.downloadStep cfg, Main.basicCleaningStep cfg here,
     Main.dataCheckStep cfg here, Main.dataSplitStep cfg,
     Main.trainRandomForestStep cfg here tmp]
    (Main.preludeState env0 cfg orig tmp)).trace, ?_, ?_⟩
  · unfold Main.doRestore Main.doDestroy
    dsimp only
    simp [List.append_assoc]
  · rfl

/-- C9 witness: the selector `"test_regression_model"` run with all steps
succeeding. -/
theorem C9_conda_flags_set_before_test_and_persist_witness :
    ("test_regression_model"
        ∈ Main.invokedSteps (Main.go okAll env0c cfgTest "HERE" "ORIG" "TMP").trace)
    ∧ (∃ t, (Main.go okAll env0c cfgTest "HERE" "ORIG" "TMP").trace
        = t ++ [Main.Event.setEnvVar "MLFLOW_CONDA_CREATE_FLAGS" "python=3.10",
                Main.Event.invoke "test_regression_model"
                  (cfgTest.components_repository ++ "/test_regression_model")
                  [("mlflow_model", "random_forest_export:production"),
                   ("test_dataset", "test_data.csv:latest")],
                Main.Event.destroyWorkspace, Main.Event.restoreCwd]
      ∧ (Main.go okAll env0c cfgTest "HERE" "ORIG" "TMP").env
          "MLFLOW_CONDA_CREATE_FLAGS" = some "python=3.10") :=
  ⟨by decide,
   C9_conda_flags_set_before_test_and_persist okAll env0c cfgTest "HERE" "ORIG" "TMP"
     (by decide)⟩

/-- C10: for every input dataframe, the output of the `basic_cleaning`
transformation is exactly the input rows whose price lies in
`[min_price, max_price]` and whose longitude lies in `[-74.25, -73.50]`
and latitude in `[40.5, 41.2]` (in order, inclusive bounds), each with
its `last_review` column converted; in particular every output row is an
input row with `last_review` converted. -/
theorem C10_basic_cleaning_output (toDt : String → String)
    (min_price max_price : ℚ) (df : List BasicCleaning.Row) :
    BasicCleaning.go toDt min_price max_price df
      = (df.filter (fun r => BasicCleaning.between r.price min_price max_price
          && (BasicCleaning.between r.longitude (-74.25) (-73.50)
              && BasicCleaning.between r.latitude 40.5 41.2))).map
          (BasicCleaning.convertLastReview toDt)
    ∧ ∀ r ∈ BasicCleaning.go toDt min_price max_price df,
        ∃ r₀, r₀ ∈ df ∧ r = BasicCleaning.convertLastReview toDt r₀ := by
  have hcomp : ((fun r : BasicCleaning.Row =>
        BasicCleaning.between r.longitude (-74.25) (-73.50)
          && BasicCleaning.between r.latitude 40.5 41.2)
      ∘ BasicCleaning.convertLastReview toDt)
      = (fun r : BasicCleaning.Row =>
        BasicCleaning.between r.longitude (-74.25) (-73.50)
          && BasicCleaning.between r.latitude 40.5 41.2) :=
    funext fun r => rfl
  have heq : BasicCleaning.go toDt min_price max_price df
      = (df.filter (fun r => BasicCleaning.between r.price min_price max_price
          && (BasicCleaning.between r.longitude (-74.25) (-73.50)
              && BasicCleaning.between r.latitude 40.5 41.2))).map
          (BasicCleaning.convertLastReview toDt) := by
    show List.filter _ (List.map (BasicCleaning.convertLastReview toDt)
        (List.filter (fun r => BasicCleaning.between r.price min_price max_price) df))
        = _
    rw [List.filter_map, hcomp, List.filter_filter]
    refine congrArg (List.map (BasicCleaning.convertLastReview toDt)) ?_
    refine List.filter_congr ?_
    intro r _
    rw [Bool.and_comm]
  refine ⟨heq, ?_⟩
  intro r hr
  rw [heq] at hr
  rcases List.mem_map.mp hr with ⟨r₀, hr₀, hconv⟩
  exact ⟨r₀, (List.mem_filter.mp hr₀).1, hconv.symm⟩
